import Mathlib

/-!
Verification of country/mkstruct.py: a code generator that reads a list of
country records and prints Go-syntax lookup tables and maps for ISO 3166-1
alpha-2 and alpha-3 codes, plus exhaustive enumerations of all 2- and
3-letter uppercase combinations.

The script is embedded shallowly: each routine becomes a function from the
record list to an exceptional result carrying the printed lines and the
value the routine returns; Python list indexing and the assert statements
become explicit failure cases.
-/

/-- A record of the input JSON dataset (one country object). -/
structure Country where
  name : String
  iso_3166_1_alpha2 : String
  iso_3166_1_alpha3 : String
deriving DecidableEq

/-- The ways a run of the script can abort: the assert on code length
(spec name InvalidCodeError, carrying the offending code) and a Python
IndexError from an out-of-range list subscript. -/
inductive PyErr where
  | invalidCode (code : String)
  | indexError
deriving DecidableEq

instance {ε α : Type} [DecidableEq ε] [DecidableEq α] : DecidableEq (Except ε α)
  | Except.ok x, Except.ok y =>
    if h : x = y then Decidable.isTrue (by rw [h])
    else Decidable.isFalse (by intro hh; cases hh; exact h rfl)
  | Except.ok _, Except.error _ => Decidable.isFalse (by intro hh; cases hh)
  | Except.error _, Except.ok _ => Decidable.isFalse (by intro hh; cases hh)
  | Except.error e, Except.error f =>
    if h : e = f then Decidable.isTrue (by rw [h])
    else Decidable.isFalse (by intro hh; cases hh; exact h rfl)

/-- Python ord on a character: its Unicode codepoint. -/
def pyord (c : Char) : Nat := c.toNat

/-- Python chr: the character for a codepoint. -/
def pychr (n : Nat) : Char := Char.ofNat n

/-- code[i] on a string whose length was already checked by the assert. -/
def codeChar (code : String) (i : Nat) : Char := code.toList.getD i ' '

/-- The letter-index formula used by the table builders: ord(code[i]) % 65. -/
def modIdx (code : String) (i : Nat) : Nat := pyord (codeChar code i) % 65

/-- Spec-side letter index: codepoint - 65, so A = 0 .. Z = 25. -/
def alphaIdx (c : Char) : Nat := pyord c - 65

/-- Python list subscript l[i] for a nonnegative index: IndexError when the
index is out of range. -/
def pyGet {α : Type} (l : List α) (i : Nat) : Except PyErr α :=
  match l[i]? with
  | some x => Except.ok x
  | none => Except.error PyErr.indexError

/-- table[i][j] = v with Python semantics: table[i] is evaluated first and
raises IndexError when out of range, then the row is assigned at j. -/
def setCell2 (t : List (List String)) (i j : Nat) (v : String) :
    Except PyErr (List (List String)) :=
  match pyGet t i with
  | Except.error e => Except.error e
  | Except.ok row =>
    if j < row.length then Except.ok (t.set i (row.set j v))
    else Except.error PyErr.indexError

/-- The 26x26 matrix of empty strings iso2table starts from. -/
def emptyTable2 : List (List String) := List.replicate 26 (List.replicate 26 "")

/-- One iteration of the fill loop of iso2table: assert the code length,
compute row and column with the mod-65 formula, assign the name. -/
def fillStep2 (t : List (List String)) (c : Country) :
    Except PyErr (List (List String)) :=
  if c.iso_3166_1_alpha2.length = 2 then
    setCell2 t (modIdx c.iso_3166_1_alpha2 0) (modIdx c.iso_3166_1_alpha2 1) c.name
  else Except.error (PyErr.invalidCode c.iso_3166_1_alpha2)

/-- The fill loop of iso2table over the record list. -/
def fillTable2 (t : List (List String)) : List Country → Except PyErr (List (List String))
  | [] => Except.ok t
  | c :: rest =>
    match fillStep2 t c with
    | Except.ok t2 => fillTable2 t2 rest
    | Except.error e => Except.error e

/-- One printed row of the 2-letter table. -/
def fmtRow2 (row : List String) : String :=
  "    \x7b\"" ++ String.intercalate "\", \"" row ++ "\"\x7d,"

/-- The lines iso2table prints for a filled table. -/
def iso2tableLines (t : List (List String)) : List String :=
  ("var iso2table = [][]string\x7b" :: t.map fmtRow2) ++ ["\x7d"]

/-- The routine iso2table: build the table, print its declaration, and
return the table to the caller. -/
def iso2table (data : List Country) :
    Except PyErr (List String × List (List String)) :=
  match fillTable2 emptyTable2 data with
  | Except.ok t => Except.ok (iso2tableLines t, t)
  | Except.error e => Except.error e

/-- The 26x26x26 cube of empty strings iso3table starts from. -/
def emptyTable3 : List (List (List String)) :=
  List.replicate 26 (List.replicate 26 (List.replicate 26 ""))

/-- table[i][j][k] = v with Python semantics. -/
def setCell3 (t : List (List (List String))) (i j k : Nat) (v : String) :
    Except PyErr (List (List (List String))) :=
  match pyGet t i with
  | Except.error e => Except.error e
  | Except.ok mat =>
    match pyGet mat j with
    | Except.error e => Except.error e
    | Except.ok row =>
      if k < row.length then Except.ok (t.set i (mat.set j (row.set k v)))
      else Except.error PyErr.indexError

/-- One iteration of the fill loop of iso3table. -/
def fillStep3 (t : List (List (List String))) (c : Country) :
    Except PyErr (List (List (List String))) :=
  if c.iso_3166_1_alpha3.length = 3 then
    setCell3 t (modIdx c.iso_3166_1_alpha3 0) (modIdx c.iso_3166_1_alpha3 1)
      (modIdx c.iso_3166_1_alpha3 2) c.name
  else Except.error (PyErr.invalidCode c.iso_3166_1_alpha3)

/-- The fill loop of iso3table over the record list. -/
def fillTable3 (t : List (List (List String))) :
    List Country → Except PyErr (List (List (List String)))
  | [] => Except.ok t
  | c :: rest =>
    match fillStep3 t c with
    | Except.ok t2 => fillTable3 t2 rest
    | Except.error e => Except.error e

/-- The lines iso3table prints for a filled cube. -/
def iso3tableLines (t : List (List (List String))) : List String :=
  ("var iso3table = [][][]string\x7b" ::
    t.flatMap (fun mat =>
      "    \x7b" ::
        (mat.map (fun row =>
          "        \x7b\"" ++ String.intercalate "\", \"" row ++ "\"\x7d,")) ++
        ["    \x7d,"])) ++ ["\x7d"]

/-- The routine iso3table: build the cube, print it, return it. -/
def iso3table (data : List Country) :
    Except PyErr (List String × List (List (List String))) :=
  match fillTable3 emptyTable3 data with
  | Except.ok t => Except.ok (iso3tableLines t, t)
  | Except.error e => Except.error e

/-- Python dict assignment d[k] = v on an insertion-ordered map with unique
keys: an existing key keeps its position and gets the new value, a new key
is appended at the end. -/
def dictInsert : List (String × String) → String → String → List (String × String)
  | [], k, v => [(k, v)]
  | p :: rest, k, v => if p.1 = k then (k, v) :: rest else p :: dictInsert rest k v

/-- Lookup in the association-list model of a Python dict. -/
def dictLookup (m : List (String × String)) (k : String) : Option String :=
  (m.find? (fun p => p.1 == k)).map Prod.snd

/-- The fill loop of iso2map: assert the code length, assign into the dict. -/
def fillMap2 (m : List (String × String)) :
    List Country → Except PyErr (List (String × String))
  | [] => Except.ok m
  | c :: rest =>
    if c.iso_3166_1_alpha2.length = 2 then
      fillMap2 (dictInsert m c.iso_3166_1_alpha2 c.name) rest
    else Except.error (PyErr.invalidCode c.iso_3166_1_alpha2)

/-- The lines iso2map prints, one key-value pair per line in dict order. -/
def iso2mapLines (m : List (String × String)) : List String :=
  ("var iso2map = map[string]string\x7b" ::
    m.map (fun p => "    \"" ++ p.1 ++ "\": \"" ++ p.2 ++ "\",")) ++ ["\x7d"]

/-- The routine iso2map: build the dict, print it, return it. -/
def iso2map (data : List Country) :
    Except PyErr (List String × List (String × String)) :=
  match fillMap2 [] data with
  | Except.ok m => Except.ok (iso2mapLines m, m)
  | Except.error e => Except.error e

/-- The fill loop of iso3map. -/
def fillMap3 (m : List (String × String)) :
    List Country → Except PyErr (List (String × String))
  | [] => Except.ok m
  | c :: rest =>
    if c.iso_3166_1_alpha3.length = 3 then
      fillMap3 (dictInsert m c.iso_3166_1_alpha3 c.name) rest
    else Except.error (PyErr.invalidCode c.iso_3166_1_alpha3)

/-- The lines iso3map prints. -/
def iso3mapLines (m : List (String × String)) : List String :=
  ("var iso3map = map[string]string\x7b" ::
    m.map (fun p => "    \"" ++ p.1 ++ "\": \"" ++ p.2 ++ "\",")) ++ ["\x7d"]

/-- The routine iso3map: build the dict, print it, return it. -/
def iso3map (data : List Country) :
    Except PyErr (List String × List (String × String)) :=
  match fillMap3 [] data with
  | Except.ok m => Except.ok (iso3mapLines m, m)
  | Except.error e => Except.error e

/-- The combos list of char2combos: 26 rows of 26 two-letter strings. -/
def char2combosList : List (List String) :=
  (List.range 26).map (fun i =>
    (List.range 26).map (fun j => String.mk [pychr (i + 65), pychr (j + 65)]))

/-- The flattened sequence of two-letter combinations char2combos emits. -/
def char2flat : List String := char2combosList.flatten

/-- The lines char2combos prints; the routine returns nothing. -/
def char2combos : List String :=
  ("var char2words = []string\x7b" ::
    char2combosList.map (fun row =>
      "    \"" ++ String.intercalate "\", \"" row ++ "\",")) ++ ["\x7d"]

/-- The combos list of char3combos: a flat list of 676 rows of 26
three-letter strings, built by two outer loops appending one row per
innermost loop. -/
def char3combosList : List (List String) :=
  (List.range 26).flatMap (fun i =>
    (List.range 26).map (fun j =>
      (List.range 26).map (fun k =>
        String.mk [pychr (i + 65), pychr (j + 65), pychr (k + 65)])))

/-- The flattened sequence of three-letter combinations char3combos emits. -/
def char3flat : List String := char3combosList.flatten

/-- The lines char3combos prints; the routine returns nothing. Note the
header names the variable char2words, same as char2combos. -/
def char3combos : List String :=
  ("var char2words = []string\x7b" ::
    char3combosList.map (fun row =>
      "    \"" ++ String.intercalate "\", \"" row ++ "\",")) ++ ["\x7d"]

/-- Read a cell of the 2-letter table, empty string when out of range. -/
def cell (t : List (List String)) (i j : Nat) : String := (t.getD i []).getD j ""

/-- Read a cell of the 3-letter cube, empty string when out of range. -/
def cell3 (t : List (List (List String))) (i j k : Nat) : String :=
  ((t.getD i []).getD j []).getD k ""

/-- The lines a routine printed: none when it aborted with an error,
because every routine prints only after its fill loop finished. -/
def outputLines {α : Type} (r : Except PyErr (List String × α)) : List String :=
  match r with
  | Except.ok p => p.1
  | Except.error _ => []

/-- Whether a record writes the table cell (i, j): its computed row and
column indices equal i and j. -/
def hits2 (c : Country) (i j : Nat) : Bool :=
  modIdx c.iso_3166_1_alpha2 0 == i && modIdx c.iso_3166_1_alpha2 1 == j

/-- A record is valid for the alpha-2 builders: its code has length 2 and
all its characters are uppercase letters. -/
def validAlpha2 (c : Country) : Prop :=
  c.iso_3166_1_alpha2.length = 2 ∧
    ∀ ch ∈ c.iso_3166_1_alpha2.toList, 'A' ≤ ch ∧ ch ≤ 'Z'

instance validAlpha2_decidable (c : Country) : Decidable (validAlpha2 c) :=
  inferInstanceAs (Decidable (c.iso_3166_1_alpha2.length = 2 ∧
    ∀ ch ∈ c.iso_3166_1_alpha2.toList, 'A' ≤ ch ∧ ch ≤ 'Z'))

/-- The keys of a list in first-occurrence order, the order in which a
Python dict filled from the list enumerates them. -/
def firstOccurrences : List String → List String
  | [] => []
  | k :: rest => k :: (firstOccurrences rest).filter (fun x => x != k)

/-! Facts about the alphabet characters the enumerators use. -/

/-- On alphabet positions 0..25, pychr (i + 65) respects the order. -/
theorem pychr_lt_iff : ∀ a < 26, ∀ b < 26,
    ((pychr (a + 65) < pychr (b + 65)) ↔ a < b) := by decide

/-- Every pychr (a + 65) with a < 26 is an uppercase letter. -/
theorem pychr_bound : ∀ a < 26, ('A' ≤ pychr (a + 65) ∧ pychr (a + 65) ≤ 'Z') := by decide

/-- String order on packed character lists is list order. -/
theorem mk_lt_mk {l m : List Char} : String.mk l < String.mk m ↔ l < m :=
  String.lt_iff_toList_lt

/-- Strings whose first characters are increasing alphabet letters compare. -/
theorem mk_lt_of_head {i i' : Nat} (hi : i < 26) (hi' : i' < 26) (h : i < i')
    (rest rest' : List Char) :
    String.mk (pychr (i + 65) :: rest) < String.mk (pychr (i' + 65) :: rest') := by
  rw [mk_lt_mk]
  exact List.Lex.rel ((pychr_lt_iff i hi i' hi').2 h)

/-- Strings with the same first character compare by their tails. -/
theorem mk_lt_of_tail {c : Char} {l m : List Char} (h : l < m) :
    String.mk (c :: l) < String.mk (c :: m) := by
  rw [mk_lt_mk]
  exact List.Lex.cons h

/-- The flattened two-letter sequence is strictly increasing. -/
theorem char2flat_sorted : List.Pairwise (· < ·) char2flat := by
  rw [char2flat, char2combosList, List.pairwise_flatten]
  constructor
  · intro l hl
    obtain ⟨i, hi, rfl⟩ := List.mem_map.1 hl
    rw [List.mem_range] at hi
    rw [List.pairwise_map]
    refine List.Pairwise.imp_of_mem ?_ (List.pairwise_lt_range 26)
    intro a b ha hb hab
    rw [List.mem_range] at ha hb
    exact mk_lt_of_tail (List.Lex.rel ((pychr_lt_iff a ha b hb).2 hab))
  · rw [List.pairwise_map]
    refine List.Pairwise.imp_of_mem ?_ (List.pairwise_lt_range 26)
    intro i i' hi hi' hii x hx y hy
    rw [List.mem_range] at hi hi'
    obtain ⟨j, hj, rfl⟩ := List.mem_map.1 hx
    obtain ⟨j', hj', rfl⟩ := List.mem_map.1 hy
    exact mk_lt_of_head hi hi' hii _ _

/-- The flattened three-letter sequence is strictly increasing. -/
theorem char3flat_sorted : List.Pairwise (· < ·) char3flat := by
  rw [char3flat, char3combosList, List.pairwise_flatten]
  constructor
  · intro l hl
    obtain ⟨i, hi, hli⟩ := List.mem_flatMap.1 hl
    obtain ⟨j, hj, rfl⟩ := List.mem_map.1 hli
    rw [List.mem_range] at hi hj
    rw [List.pairwise_map]
    refine List.Pairwise.imp_of_mem ?_ (List.pairwise_lt_range 26)
    intro a b ha hb hab
    rw [List.mem_range] at ha hb
    exact mk_lt_of_tail (List.Lex.cons (List.Lex.rel ((pychr_lt_iff a ha b hb).2 hab)))
  · rw [List.pairwise_flatMap]
    constructor
    · intro i hi
      rw [List.mem_range] at hi
      rw [List.pairwise_map]
      refine List.Pairwise.imp_of_mem ?_ (List.pairwise_lt_range 26)
      intro a b ha hb hab x hx y hy
      rw [List.mem_range] at ha hb
      obtain ⟨k, hk, rfl⟩ := List.mem_map.1 hx
      obtain ⟨k', hk', rfl⟩ := List.mem_map.1 hy
      exact mk_lt_of_tail (List.Lex.rel ((pychr_lt_iff a ha b hb).2 hab))
    · refine List.Pairwise.imp_of_mem ?_ (List.pairwise_lt_range 26)
      intro i i' hi hi' hii r1 hr1 r2 hr2 x hx y hy
      rw [List.mem_range] at hi hi'
      obtain ⟨j, hj, rfl⟩ := List.mem_map.1 hr1
      obtain ⟨j', hj', rfl⟩ := List.mem_map.1 hr2
      obtain ⟨k, hk, rfl⟩ := List.mem_map.1 hx
      obtain ⟨k', hk', rfl⟩ := List.mem_map.1 hy
      exact mk_lt_of_head hi hi' hii _ _

/-- Flattening a list of lists of a common length multiplies the lengths. -/
theorem length_flatten_const {α : Type} (L : List (List α)) (n : Nat)
    (h : ∀ l ∈ L, l.length = n) : L.flatten.length = L.length * n := by
  induction L with
  | nil => simp
  | cons l L ih =>
    simp only [List.flatten_cons, List.length_append, List.length_cons]
    rw [h l (by simp), ih (fun x hx => h x (by simp [hx])), Nat.succ_mul, Nat.add_comm]

theorem char2combosList_length : char2combosList.length = 26 := by
  simp [char2combosList]

theorem char2combosList_rows : ∀ l ∈ char2combosList, l.length = 26 := by
  intro l hl
  rw [char2combosList] at hl
  obtain ⟨i, _, rfl⟩ := List.mem_map.1 hl
  simp

theorem char2flat_length : char2flat.length = 676 := by
  rw [char2flat, length_flatten_const _ 26 char2combosList_rows, char2combosList_length]

theorem char3combosList_length : char3combosList.length = 676 := by
  rw [char3combosList, List.flatMap_def, length_flatten_const _ 26 ?_]
  · simp
  · intro l hl
    obtain ⟨li, hli, rfl⟩ := List.mem_map.1 hl
    simp

theorem char3combosList_rows : ∀ l ∈ char3combosList, l.length = 26 := by
  intro l hl
  rw [char3combosList] at hl
  obtain ⟨i, _, hli⟩ := List.mem_flatMap.1 hl
  obtain ⟨j, _, rfl⟩ := List.mem_map.1 hli
  simp

theorem char3flat_length : char3flat.length = 17576 := by
  rw [char3flat, length_flatten_const _ 26 char3combosList_rows, char3combosList_length]

theorem char2flat_shape : ∀ s ∈ char2flat, s.length = 2 ∧
    ∀ ch ∈ s.toList, 'A' ≤ ch ∧ ch ≤ 'Z' := by
  intro s hs
  rw [char2flat, char2combosList] at hs
  obtain ⟨l, hl, hsl⟩ := List.mem_flatten.1 hs
  obtain ⟨i, hi, rfl⟩ := List.mem_map.1 hl
  obtain ⟨j, hj, rfl⟩ := List.mem_map.1 hsl
  rw [List.mem_range] at hi hj
  refine ⟨rfl, ?_⟩
  intro ch hch
  have hl2 : (String.mk [pychr (i + 65), pychr (j + 65)]).toList =
      [pychr (i + 65), pychr (j + 65)] := rfl
  rw [hl2] at hch
  rcases List.mem_cons.1 hch with h | h
  · exact h ▸ pychr_bound i hi
  · rcases List.mem_cons.1 h with h2 | h2
    · exact h2 ▸ pychr_bound j hj
    · cases h2

theorem char3flat_shape : ∀ s ∈ char3flat, s.length = 3 ∧
    ∀ ch ∈ s.toList, 'A' ≤ ch ∧ ch ≤ 'Z' := by
  intro s hs
  rw [char3flat, char3combosList] at hs
  obtain ⟨l, hl, hsl⟩ := List.mem_flatten.1 hs
  obtain ⟨i, hi, hli⟩ := List.mem_flatMap.1 hl
  obtain ⟨j, hj, rfl⟩ := List.mem_map.1 hli
  obtain ⟨k, hk, rfl⟩ := List.mem_map.1 hsl
  rw [List.mem_range] at hi hj hk
  refine ⟨rfl, ?_⟩
  intro ch hch
  have hl3 : (String.mk [pychr (i + 65), pychr (j + 65), pychr (k + 65)]).toList =
      [pychr (i + 65), pychr (j + 65), pychr (k + 65)] := rfl
  rw [hl3] at hch
  rcases List.mem_cons.1 hch with h | h
  · exact h ▸ pychr_bound i hi
  · rcases List.mem_cons.1 h with h2 | h2
    · exact h2 ▸ pychr_bound j hj
    · rcases List.mem_cons.1 h2 with h3 | h3
      · exact h3 ▸ pychr_bound k hk
      · cases h3

/-- C2: the flattened sequence produced by char2combos consists of exactly 676
pairwise-distinct strings, each of length 2 with every character in A..Z, and
the sequence is strictly increasing in lexicographic order. -/
theorem c2_char2combos_enumeration :
    char2flat.length = 676 ∧ char2flat.Nodup ∧
    (∀ s ∈ char2flat, s.length = 2 ∧ ∀ ch ∈ s.toList, 'A' ≤ ch ∧ ch ≤ 'Z') ∧
    List.Pairwise (· < ·) char2flat :=
  ⟨char2flat_length, char2flat_sorted.imp (fun h => ne_of_lt h),
    char2flat_shape, char2flat_sorted⟩

/-- C3: the flattened sequence produced by char3combos consists of exactly
17576 pairwise-distinct strings of length 3 over A..Z, strictly increasing
in lexicographic order, emitted as a flat sequence of 676 sub-groups of 26. -/
theorem c3_char3combos_enumeration :
    char3flat.length = 17576 ∧ char3flat.Nodup ∧
    (∀ s ∈ char3flat, s.length = 3 ∧ ∀ ch ∈ s.toList, 'A' ≤ ch ∧ ch ≤ 'Z') ∧
    List.Pairwise (· < ·) char3flat ∧
    char3combosList.length = 676 ∧ (∀ l ∈ char3combosList, l.length = 26) ∧
    char3flat = char3combosList.flatten :=
  ⟨char3flat_length, char3flat_sorted.imp (fun h => ne_of_lt h),
    char3flat_shape, char3flat_sorted,
    char3combosList_length, char3combosList_rows, rfl⟩

/-- Char order agrees with codepoint order. -/
theorem char_le_iff {a b : Char} : a ≤ b ↔ pyord a ≤ pyord b := by
  rw [Char.le_def, UInt32.le_def, BitVec.le_def]
  exact Iff.rfl

/-- Characters with equal codepoints are equal. -/
theorem char_eq_of_pyord_eq {a b : Char} (h : pyord a = pyord b) : a = b := by
  have h2 := congrArg Char.ofNat h
  rwa [pyord, pyord, Char.ofNat_toNat, Char.ofNat_toNat] at h2

/-- The codepoint of an uppercase letter lies in 65..90. -/
theorem pyord_of_upper {c : Char} (h1 : 'A' ≤ c) (h2 : c ≤ 'Z') :
    65 ≤ pyord c ∧ pyord c ≤ 90 := by
  rw [char_le_iff] at h1 h2
  have ha : pyord 'A' = 65 := rfl
  have hz : pyord 'Z' = 90 := rfl
  rw [ha] at h1
  rw [hz] at h2
  exact ⟨h1, h2⟩

/-- On uppercase letters, codepoint mod 65 equals codepoint minus 65. -/
theorem upper_mod65 {c : Char} (h1 : 'A' ≤ c) (h2 : c ≤ 'Z') :
    pyord c % 65 = alphaIdx c := by
  obtain ⟨hlo, hhi⟩ := pyord_of_upper h1 h2
  rw [alphaIdx]
  omega

/-- C7: for every character in A..Z, the mod-65 letter-index formula the table
builders apply to each code character equals codepoint minus 65; the two
indexing formulas agree on all valid uppercase input. -/
theorem c7_mod65_eq_sub65 (c : Char) (h1 : 'A' ≤ c) (h2 : c ≤ 'Z') :
    pyord c % 65 = alphaIdx c :=
  upper_mod65 h1 h2

/-- C7 witness at the concrete letter Q. -/
theorem c7_mod65_eq_sub65_witness :
    ('A' ≤ 'Q' ∧ 'Q' ≤ 'Z') ∧ pyord 'Q' % 65 = alphaIdx 'Q' :=
  ⟨by decide, c7_mod65_eq_sub65 'Q' (by decide) (by decide)⟩

/-- C10: char3combos prints the identical declaration header var char2words
that char2combos prints; the 3-letter output is not labeled char3words. -/
theorem c10_char3combos_header :
    char3combos.head? = some "var char2words = []string\x7b" ∧
    char3combos.head? = char2combos.head? :=
  ⟨rfl, rfl⟩

/-- C9 fails on the code: iso2table does return a structured value to its
caller. On a one-record input the result's second component is the built
26x26 grid, which differs from the initial empty grid. -/
theorem c9_counterexample :
    (iso2table [⟨"Testland", "TL", "TST"⟩]).map Prod.snd =
      Except.ok (emptyTable2.set 19 ((List.replicate 26 "").set 11 "Testland")) ∧
    emptyTable2.set 19 ((List.replicate 26 "").set 11 "Testland") ≠ emptyTable2 := by
  constructor
  · decide
  · decide

/-- C9 amended: every generation routine writes its literal source-syntax
declaration to standard output only, but the four table/map builders also
return the built structure to their caller (the two enumerators return no
value): whenever the fill loop succeeds, the printed lines are exactly the
declaration of the built structure and the structure itself is returned. -/
theorem c9_builders_return_structures (data : List Country)
    (t2 : List (List String)) (t3 : List (List (List String)))
    (m2 m3 : List (String × String))
    (h2 : fillTable2 emptyTable2 data = Except.ok t2)
    (h3 : fillTable3 emptyTable3 data = Except.ok t3)
    (hm2 : fillMap2 [] data = Except.ok m2)
    (hm3 : fillMap3 [] data = Except.ok m3) :
    iso2table data = Except.ok (iso2tableLines t2, t2) ∧
    iso3table data = Except.ok (iso3tableLines t3, t3) ∧
    iso2map data = Except.ok (iso2mapLines m2, m2) ∧
    iso3map data = Except.ok (iso3mapLines m3, m3) := by
  rw [iso2table, iso3table, iso2map, iso3map, h2, h3, hm2, hm3]
  exact ⟨rfl, rfl, rfl, rfl⟩

/-- C9 amended witness on a concrete one-record dataset. -/
theorem c9_builders_return_structures_witness :
    (fillTable2 emptyTable2 [⟨"Testland", "TL", "TST"⟩] =
        Except.ok (emptyTable2.set 19 ((List.replicate 26 "").set 11 "Testland")) ∧
      fillTable3 emptyTable3 [⟨"Testland", "TL", "TST"⟩] =
        Except.ok (emptyTable3.set 19 ((List.replicate 26 (List.replicate 26 "")).set 18
          ((List.replicate 26 "").set 19 "Testland"))) ∧
      fillMap2 [] [⟨"Testland", "TL", "TST"⟩] = Except.ok [("TL", "Testland")] ∧
      fillMap3 [] [⟨"Testland", "TL", "TST"⟩] = Except.ok [("TST", "Testland")]) ∧
    (iso2table [⟨"Testland", "TL", "TST"⟩] =
        Except.ok (iso2tableLines (emptyTable2.set 19 ((List.replicate 26 "").set 11 "Testland")),
          emptyTable2.set 19 ((List.replicate 26 "").set 11 "Testland")) ∧
      iso3table [⟨"Testland", "TL", "TST"⟩] =
        Except.ok (iso3tableLines (emptyTable3.set 19
            ((List.replicate 26 (List.replicate 26 "")).set 18
              ((List.replicate 26 "").set 19 "Testland"))),
          emptyTable3.set 19 ((List.replicate 26 (List.replicate 26 "")).set 18
            ((List.replicate 26 "").set 19 "Testland"))) ∧
      iso2map [⟨"Testland", "TL", "TST"⟩] =
        Except.ok (iso2mapLines [("TL", "Testland")], [("TL", "Testland")]) ∧
      iso3map [⟨"Testland", "TL", "TST"⟩] =
        Except.ok (iso3mapLines [("TST", "Testland")], [("TST", "Testland")])) :=
  ⟨⟨by decide, by decide, by decide, by decide⟩,
    c9_builders_return_structures [⟨"Testland", "TL", "TST"⟩] _ _ _ _
      (by decide) (by decide) (by decide) (by decide)⟩

/-! Machinery for the table builders. -/

/-- The alpha-2 fill loop processes an appended suffix after the prefix. -/
theorem fillTable2_append (t : List (List String)) (l1 l2 : List Country) :
    fillTable2 t (l1 ++ l2) =
      match fillTable2 t l1 with
      | Except.ok t2 => fillTable2 t2 l2
      | Except.error e => Except.error e := by
  induction l1 generalizing t with
  | nil => simp [fillTable2]
  | cons a l ih =>
    cases h : fillStep2 t a with
    | ok t2 => simp [fillTable2, h, ih]
    | error e => simp [fillTable2, h]

/-- The fill loop continues from a successful prefix. -/
theorem fillTable2_append_ok {t t1 : List (List String)} {l1 : List Country}
    (h : fillTable2 t l1 = Except.ok t1) (l2 : List Country) :
    fillTable2 t (l1 ++ l2) = fillTable2 t1 l2 := by
  rw [fillTable2_append, h]

/-- The fill loop keeps the error of a failing prefix. -/
theorem fillTable2_append_err {t : List (List String)} {l1 : List Country} {e : PyErr}
    (h : fillTable2 t l1 = Except.error e) (l2 : List Country) :
    fillTable2 t (l1 ++ l2) = Except.error e := by
  rw [fillTable2_append, h]

/-- The alpha-2 fill loop on one record is one fill step. -/
theorem fillTable2_singleton (t : List (List String)) (c : Country) :
    fillTable2 t [c] = fillStep2 t c := by
  cases h : fillStep2 t c with
  | ok t2 => simp [fillTable2, h]
  | error e => simp [fillTable2, h]

/-- Success analysis of a single Python cell assignment. -/
theorem setCell2_ok {t t2 : List (List String)} {i j : Nat} {v : String}
    (h : setCell2 t i j v = Except.ok t2) :
    ∃ row, t[i]? = some row ∧ j < row.length ∧ t2 = t.set i (row.set j v) := by
  cases hg : t[i]? with
  | none => rw [setCell2, pyGet, hg] at h; exact absurd h (by simp)
  | some row =>
    by_cases hj : j < row.length
    · rw [setCell2, pyGet, hg] at h
      simp only [hj, if_true] at h
      exact ⟨row, rfl, hj, (Except.ok.inj h).symm⟩
    · rw [setCell2, pyGet, hg] at h
      simp only [hj, if_false] at h
      exact absurd h (by simp)

/-- Reading a cell after a Python cell assignment. -/
theorem cell_set {t : List (List String)} {row : List String} {i j : Nat} {v : String}
    (hi : t[i]? = some row) (hj : j < row.length) (i' j' : Nat) :
    cell (t.set i (row.set j v)) i' j' = if i' = i ∧ j' = j then v else cell t i' j' := by
  obtain ⟨hlen, hval⟩ := List.getElem?_eq_some_iff.1 hi
  simp only [cell, List.getD_eq_getElem?_getD]
  by_cases hii : i' = i
  · subst hii
    rw [List.getElem?_set_self hlen, hi]
    simp only [Option.getD_some]
    by_cases hjj : j' = j
    · subst hjj
      simp only [and_self, if_true]
      rw [List.getElem?_set_self hj, Option.getD_some]
    · rw [if_neg (fun hc => hjj hc.2), List.getElem?_set_ne (fun hc => hjj hc.symm)]
  · rw [if_neg (fun hc => hii hc.1), List.getElem?_set_ne (fun hc => hii hc.symm)]

/-- Every cell of the initial table is the empty string. -/
theorem cell_emptyTable2 (i j : Nat) : cell emptyTable2 i j = "" := by
  simp only [cell, emptyTable2, List.getD_eq_getElem?_getD, List.getElem?_replicate]
  by_cases h : i < 26
  · rw [if_pos h, Option.getD_some, List.getElem?_replicate]
    by_cases h2 : j < 26
    · rw [if_pos h2, Option.getD_some]
    · rw [if_neg h2, Option.getD_none]
  · rw [if_neg h, Option.getD_none]
    simp

/-- Master cell law of the alpha-2 fill loop: a successful run leaves in each
cell the name of the last record in input order that addresses it, and the
empty string where no record does. -/
theorem fillTable2_cell {data : List Country} {t : List (List String)}
    (h : fillTable2 emptyTable2 data = Except.ok t) (i j : Nat) :
    cell t i j = ((data.reverse.find? (fun c => hits2 c i j)).map Country.name).getD "" := by
  induction data using List.reverseRecOn generalizing t with
  | nil =>
    have ht : t = emptyTable2 := (Except.ok.inj h).symm
    subst ht
    simp [cell_emptyTable2]
  | append_singleton l c ih =>
    cases hl : fillTable2 emptyTable2 l with
    | error e => rw [fillTable2_append_err hl] at h; exact absurd h (by simp)
    | ok t1 =>
      rw [fillTable2_append_ok hl, fillTable2_singleton, fillStep2] at h
      by_cases hlen : c.iso_3166_1_alpha2.length = 2
      · rw [if_pos hlen] at h
        obtain ⟨row, hrow, hj, rfl⟩ := setCell2_ok h
        rw [cell_set hrow hj, List.reverse_append]
        have hrv : (([c].reverse ++ l.reverse : List Country)) = c :: l.reverse := by simp
        rw [hrv]
        by_cases hc : hits2 c i j
        · have hcb := hc
          rw [hits2, Bool.and_eq_true, beq_iff_eq, beq_iff_eq] at hc
          rw [if_pos ⟨hc.1.symm, hc.2.symm⟩]
          simp only [List.find?_cons, hcb]
          rfl
        · have hcb : hits2 c i j = false := by
            revert hc
            cases hits2 c i j <;> simp
          have hcc : ¬(modIdx c.iso_3166_1_alpha2 0 = i ∧ modIdx c.iso_3166_1_alpha2 1 = j) := by
            intro hcon
            exact hc (by rw [hits2, Bool.and_eq_true, beq_iff_eq, beq_iff_eq]; exact hcon)
          rw [if_neg (fun hcon => hcc ⟨hcon.1.symm, hcon.2.symm⟩)]
          simp only [List.find?_cons, hcb]
          exact ih hl
      · rw [if_neg hlen] at h
        exact absurd h (by simp)

/-- On alphabet codepoints the mod-65 index stays below 26. -/
theorem modIdx_lt_of_upper {code : String} {i : Nat}
    (h1 : 'A' ≤ codeChar code i) (h2 : codeChar code i ≤ 'Z') : modIdx code i < 26 := by
  obtain ⟨l, u⟩ := pyord_of_upper h1 h2
  rw [modIdx]
  omega

/-- Distinct uppercase letters keep distinct mod-65 indices. -/
theorem upper_char_inj {a b : Char} (ha1 : 'A' ≤ a) (ha2 : a ≤ 'Z')
    (hb1 : 'A' ≤ b) (hb2 : b ≤ 'Z') (h : pyord a % 65 = pyord b % 65) : a = b := by
  obtain ⟨la, ua⟩ := pyord_of_upper ha1 ha2
  obtain ⟨lb, ub⟩ := pyord_of_upper hb1 hb2
  exact char_eq_of_pyord_eq (by omega)

/-- A length-2 string is its two indexed characters. -/
theorem toList_eq_of_length_two {code : String} (h : code.length = 2) :
    code.toList = [codeChar code 0, codeChar code 1] := by
  have hl : code.toList.length = 2 := h
  obtain ⟨a, b, hab⟩ := List.length_eq_two.1 hl
  simp only [codeChar]
  rw [hab]
  rfl

/-- The index bounds and the mod-to-sub index identities of a valid record. -/
theorem validAlpha2_bounds {c : Country} (h : validAlpha2 c) :
    modIdx c.iso_3166_1_alpha2 0 < 26 ∧ modIdx c.iso_3166_1_alpha2 1 < 26 ∧
    modIdx c.iso_3166_1_alpha2 0 = alphaIdx (codeChar c.iso_3166_1_alpha2 0) ∧
    modIdx c.iso_3166_1_alpha2 1 = alphaIdx (codeChar c.iso_3166_1_alpha2 1) := by
  obtain ⟨h2, hch⟩ := h
  have hl := toList_eq_of_length_two h2
  have h0 := hch (codeChar c.iso_3166_1_alpha2 0)
    (by rw [hl]; exact List.mem_cons_self _ _)
  have h1 := hch (codeChar c.iso_3166_1_alpha2 1)
    (by rw [hl]; exact List.mem_cons_of_mem _ (List.mem_cons_self _ _))
  exact ⟨modIdx_lt_of_upper h0.1 h0.2, modIdx_lt_of_upper h1.1 h1.2,
    upper_mod65 h0.1 h0.2, upper_mod65 h1.1 h1.2⟩

/-- Two valid records with the same computed indices have the same code. -/
theorem code_eq_of_idx_eq {c d : Country} (hc : validAlpha2 c) (hd : validAlpha2 d)
    (h0 : modIdx c.iso_3166_1_alpha2 0 = modIdx d.iso_3166_1_alpha2 0)
    (h1 : modIdx c.iso_3166_1_alpha2 1 = modIdx d.iso_3166_1_alpha2 1) :
    c.iso_3166_1_alpha2 = d.iso_3166_1_alpha2 := by
  obtain ⟨hc2, hcch⟩ := hc
  obtain ⟨hd2, hdch⟩ := hd
  have hcl := toList_eq_of_length_two hc2
  have hdl := toList_eq_of_length_two hd2
  have hcb0 := hcch (codeChar c.iso_3166_1_alpha2 0)
    (by rw [hcl]; exact List.mem_cons_self _ _)
  have hcb1 := hcch (codeChar c.iso_3166_1_alpha2 1)
    (by rw [hcl]; exact List.mem_cons_of_mem _ (List.mem_cons_self _ _))
  have hdb0 := hdch (codeChar d.iso_3166_1_alpha2 0)
    (by rw [hdl]; exact List.mem_cons_self _ _)
  have hdb1 := hdch (codeChar d.iso_3166_1_alpha2 1)
    (by rw [hdl]; exact List.mem_cons_of_mem _ (List.mem_cons_self _ _))
  have e0 : codeChar c.iso_3166_1_alpha2 0 = codeChar d.iso_3166_1_alpha2 0 :=
    upper_char_inj hcb0.1 hcb0.2 hdb0.1 hdb0.2 h0
  have e1 : codeChar c.iso_3166_1_alpha2 1 = codeChar d.iso_3166_1_alpha2 1 :=
    upper_char_inj hcb1.1 hcb1.2 hdb1.1 hdb1.2 h1
  have : c.iso_3166_1_alpha2.toList = d.iso_3166_1_alpha2.toList := by
    rw [hcl, hdl, e0, e1]
  exact String.toList_inj.1 this

/-- A shaped table with in-range valid records fills without error. -/
theorem fillTable2_ok_of : ∀ (data : List Country) (t : List (List String)),
    t.length = 26 → (∀ row ∈ t, row.length = 26) →
    (∀ c ∈ data, c.iso_3166_1_alpha2.length = 2 ∧
      modIdx c.iso_3166_1_alpha2 0 < 26 ∧ modIdx c.iso_3166_1_alpha2 1 < 26) →
    ∃ t2, fillTable2 t data = Except.ok t2 := by
  intro data
  induction data with
  | nil => intro t _ _ _; exact ⟨t, rfl⟩
  | cons c rest ih =>
    intro t htl htr hvalid
    obtain ⟨h2, hi0, hi1⟩ := hvalid c (List.mem_cons_self c rest)
    have hi0t : modIdx c.iso_3166_1_alpha2 0 < t.length := htl ▸ hi0
    obtain ⟨row, hrow⟩ : ∃ row, t[modIdx c.iso_3166_1_alpha2 0]? = some row :=
      ⟨_, List.getElem?_eq_getElem hi0t⟩
    have hrowlen : row.length = 26 := htr row (List.getElem?_mem hrow)
    have hstep : fillStep2 t c = Except.ok (t.set (modIdx c.iso_3166_1_alpha2 0)
        (row.set (modIdx c.iso_3166_1_alpha2 1) c.name)) := by
      rw [fillStep2, if_pos h2, setCell2, pyGet, hrow]
      simp only [if_pos (show modIdx c.iso_3166_1_alpha2 1 < row.length by
        rw [hrowlen]; exact hi1)]
    have hnext : fillTable2 t (c :: rest) = fillTable2 (t.set (modIdx c.iso_3166_1_alpha2 0)
        (row.set (modIdx c.iso_3166_1_alpha2 1) c.name)) rest := by
      simp [fillTable2, hstep]
    rw [hnext]
    refine ih _ (by simp [htl]) ?_ (fun r hr => hvalid r (List.mem_cons_of_mem _ hr))
    intro r hr
    rcases List.mem_or_eq_of_mem_set hr with hmem | heq
    · exact htr r hmem
    · rw [heq]
      simp [hrowlen]

/-- C1: on a record list with unique valid 2-letter uppercase codes, the
grid built by iso2table places each record name at row = letter index of the
first code character and column = letter index of the second, and every cell
no record addresses stays the empty string. -/
theorem c1_iso2table_placement (data : List Country)
    (hvalid : ∀ c ∈ data, validAlpha2 c)
    (huniq : (data.map (fun c => c.iso_3166_1_alpha2)).Nodup) :
    ∃ t, fillTable2 emptyTable2 data = Except.ok t ∧
      (∀ c ∈ data, cell t (alphaIdx (codeChar c.iso_3166_1_alpha2 0))
          (alphaIdx (codeChar c.iso_3166_1_alpha2 1)) = c.name) ∧
      (∀ i j, (∀ c ∈ data, ¬(alphaIdx (codeChar c.iso_3166_1_alpha2 0) = i ∧
          alphaIdx (codeChar c.iso_3166_1_alpha2 1) = j)) → cell t i j = "") := by
  obtain ⟨t, ht⟩ := fillTable2_ok_of data emptyTable2 (by simp [emptyTable2])
    (by
      intro row hr
      rw [emptyTable2] at hr
      rw [List.eq_of_mem_replicate hr]
      simp)
    (fun c hc => ⟨(hvalid c hc).1, (validAlpha2_bounds (hvalid c hc)).1,
      (validAlpha2_bounds (hvalid c hc)).2.1⟩)
  refine ⟨t, ht, ?_, ?_⟩
  · intro c hc
    obtain ⟨b0, b1, e0, e1⟩ := validAlpha2_bounds (hvalid c hc)
    rw [← e0, ← e1, fillTable2_cell ht]
    have hs : (data.reverse.find? (fun r =>
        hits2 r (modIdx c.iso_3166_1_alpha2 0) (modIdx c.iso_3166_1_alpha2 1))).isSome :=
      List.find?_isSome.2 ⟨c, List.mem_reverse.2 hc, by simp [hits2]⟩
    obtain ⟨r, hr⟩ := Option.isSome_iff_exists.1 hs
    have hrp := List.find?_some hr
    have hrm : r ∈ data := List.mem_reverse.1 (List.mem_of_find?_eq_some hr)
    rw [hits2, Bool.and_eq_true, beq_iff_eq, beq_iff_eq] at hrp
    have hcode : r.iso_3166_1_alpha2 = c.iso_3166_1_alpha2 :=
      code_eq_of_idx_eq (hvalid r hrm) (hvalid c hc) hrp.1 hrp.2
    have hrc : r = c := List.inj_on_of_nodup_map huniq hrm hc hcode
    rw [hr, hrc]
    rfl
  · intro i j hnone
    rw [fillTable2_cell ht]
    have hfn : data.reverse.find? (fun r => hits2 r i j) = none := by
      rw [List.find?_eq_none]
      intro x hx hp
      have hxd : x ∈ data := List.mem_reverse.1 hx
      obtain ⟨b0, b1, e0, e1⟩ := validAlpha2_bounds (hvalid x hxd)
      rw [hits2, Bool.and_eq_true, beq_iff_eq, beq_iff_eq] at hp
      exact hnone x hxd ⟨by rw [← e0]; exact hp.1, by rw [← e1]; exact hp.2⟩
    rw [hfn]
    rfl

/-- C1 witness on the fixture record Testland, code TL. -/
theorem c1_iso2table_placement_witness :
    ((∀ c ∈ ([⟨"Testland", "TL", "TST"⟩] : List Country), validAlpha2 c) ∧
      (([⟨"Testland", "TL", "TST"⟩] : List Country).map
        (fun c => c.iso_3166_1_alpha2)).Nodup) ∧
    (∃ t, fillTable2 emptyTable2 [⟨"Testland", "TL", "TST"⟩] = Except.ok t ∧
      (∀ c ∈ ([⟨"Testland", "TL", "TST"⟩] : List Country),
        cell t (alphaIdx (codeChar c.iso_3166_1_alpha2 0))
          (alphaIdx (codeChar c.iso_3166_1_alpha2 1)) = c.name) ∧
      (∀ i j, (∀ c ∈ ([⟨"Testland", "TL", "TST"⟩] : List Country),
          ¬(alphaIdx (codeChar c.iso_3166_1_alpha2 0) = i ∧
            alphaIdx (codeChar c.iso_3166_1_alpha2 1) = j)) → cell t i j = "")) :=
  ⟨⟨by decide, by decide⟩,
    c1_iso2table_placement [⟨"Testland", "TL", "TST"⟩] (by decide) (by decide)⟩

/-! Machinery for the map builders. -/

/-- Finding the first match equals taking the head of the filtered list. -/
theorem find?_eq_head_filter {α : Type} (p : α → Bool) :
    ∀ (l : List α), l.find? p = (l.filter p).head? := by
  intro l
  induction l with
  | nil => rfl
  | cons a l ih =>
    cases h : p a with
    | true =>
      rw [List.find?_cons_of_pos _ h, List.filter_cons_of_pos h]
      rfl
    | false =>
      rw [List.find?_cons_of_neg _ (by simp [h]), List.filter_cons_of_neg (by simp [h]), ih]

/-- The first match on the reversed list is the last match in input order. -/
theorem find?_reverse_eq_getLast?_filter {α : Type} (p : α → Bool) (l : List α) :
    l.reverse.find? p = (l.filter p).getLast? := by
  rw [find?_eq_head_filter, List.filter_reverse, List.head?_reverse]

/-- Finding with pointwise-equal predicates gives the same result. -/
theorem find?_congr {α : Type} {p q : α → Bool} :
    ∀ {l : List α}, (∀ x ∈ l, p x = q x) → l.find? p = l.find? q := by
  intro l
  induction l with
  | nil => intro _; rfl
  | cons a l ih =>
    intro h
    rw [List.find?_cons, List.find?_cons, h a (List.mem_cons_self a l),
      ih (fun x hx => h x (List.mem_cons_of_mem _ hx))]

/-- The map fill loop processes an appended suffix after the prefix. -/
theorem fillMap2_append (m : List (String × String)) (l1 l2 : List Country) :
    fillMap2 m (l1 ++ l2) =
      match fillMap2 m l1 with
      | Except.ok m2 => fillMap2 m2 l2
      | Except.error e => Except.error e := by
  induction l1 generalizing m with
  | nil => simp [fillMap2]
  | cons a l ih =>
    by_cases h : a.iso_3166_1_alpha2.length = 2
    · simp [fillMap2, h, ih]
    · simp [fillMap2, h]

/-- The map fill loop continues from a successful prefix. -/
theorem fillMap2_append_ok {m m1 : List (String × String)} {l1 : List Country}
    (h : fillMap2 m l1 = Except.ok m1) (l2 : List Country) :
    fillMap2 m (l1 ++ l2) = fillMap2 m1 l2 := by
  rw [fillMap2_append, h]

/-- The map fill loop keeps the error of a failing prefix. -/
theorem fillMap2_append_err {m : List (String × String)} {l1 : List Country} {e : PyErr}
    (h : fillMap2 m l1 = Except.error e) (l2 : List Country) :
    fillMap2 m (l1 ++ l2) = Except.error e := by
  rw [fillMap2_append, h]

/-- The map fill loop on one record is one assert plus one dict assignment. -/
theorem fillMap2_singleton (m : List (String × String)) (c : Country) :
    fillMap2 m [c] =
      if c.iso_3166_1_alpha2.length = 2 then
        Except.ok (dictInsert m c.iso_3166_1_alpha2 c.name)
      else Except.error (PyErr.invalidCode c.iso_3166_1_alpha2) := by
  by_cases h : c.iso_3166_1_alpha2.length = 2
  · simp [fillMap2, h]
  · simp [fillMap2, h]

/-- Lookup on a nonempty association list. -/
theorem dictLookup_cons (p : String × String) (rest : List (String × String)) (k : String) :
    dictLookup (p :: rest) k = if p.1 = k then some p.2 else dictLookup rest k := by
  by_cases h : p.1 = k
  · have hb : (p.1 == k) = true := beq_iff_eq.2 h
    simp [dictLookup, List.find?_cons, hb, h]
  · have hb : (p.1 == k) = false := by simp [h]
    simp [dictLookup, List.find?_cons, hb, h]

/-- Python dict assignment updates exactly the assigned key. -/
theorem dictLookup_dictInsert (m : List (String × String)) (k v kq : String) :
    dictLookup (dictInsert m k v) kq = if kq = k then some v else dictLookup m kq := by
  induction m with
  | nil =>
    by_cases h : kq = k
    · rw [if_pos h]
      show dictLookup [(k, v)] kq = some v
      rw [dictLookup_cons, if_pos h.symm]
    · rw [if_neg h]
      show dictLookup [(k, v)] kq = dictLookup [] kq
      rw [dictLookup_cons, if_neg (fun hh => h hh.symm)]
  | cons p rest ih =>
    simp only [dictInsert]
    by_cases hp : p.1 = k
    · rw [if_pos hp, dictLookup_cons, dictLookup_cons]
      by_cases h : kq = k
      · rw [if_pos h.symm, if_pos h]
      · rw [if_neg (fun hh => h hh.symm), if_neg h,
          if_neg (fun hh : p.1 = kq => h (hp.symm.trans hh).symm)]
    · rw [if_neg hp, dictLookup_cons, dictLookup_cons, ih]
      by_cases h : kq = k
      · rw [if_pos h, if_pos h]
        by_cases hpq : p.1 = kq
        · exact absurd (hpq.trans h) hp
        · rw [if_neg hpq]
      · rw [if_neg h, if_neg h]

/-- Master lookup law of the map fill loop: a successful run maps each key
to the name of the last record in input order carrying that code. -/
theorem fillMap2_lookup : ∀ {data : List Country} {m : List (String × String)},
    fillMap2 [] data = Except.ok m → ∀ k, dictLookup m k =
      (data.reverse.find? (fun r => r.iso_3166_1_alpha2 == k)).map Country.name := by
  intro data
  induction data using List.reverseRecOn with
  | nil =>
    intro m h k
    have hm : m = [] := (Except.ok.inj h).symm
    subst hm
    rfl
  | append_singleton l c ih =>
    intro m h k
    cases hl : fillMap2 [] l with
    | error e => rw [fillMap2_append_err hl] at h; exact absurd h (by simp)
    | ok m1 =>
      rw [fillMap2_append_ok hl, fillMap2_singleton] at h
      by_cases hlen : c.iso_3166_1_alpha2.length = 2
      · rw [if_pos hlen] at h
        have hm : m = dictInsert m1 c.iso_3166_1_alpha2 c.name := (Except.ok.inj h).symm
        subst hm
        rw [dictLookup_dictInsert, List.reverse_append]
        have hrv : (([c].reverse ++ l.reverse : List Country)) = c :: l.reverse := by simp
        rw [hrv]
        by_cases hk : c.iso_3166_1_alpha2 = k
        · have hb : (c.iso_3166_1_alpha2 == k) = true := beq_iff_eq.2 hk
          rw [if_pos hk.symm, List.find?_cons]
          simp only [hb]
          rfl
        · have hb : (c.iso_3166_1_alpha2 == k) = false := by simp [hk]
          rw [if_neg (fun hh => hk hh.symm), List.find?_cons]
          simp only [hb]
          exact ih hl k
      · rw [if_neg hlen] at h; exact absurd h (by simp)

/-- The map fill loop cannot fail on length-2 codes. -/
theorem fillMap2_ok : ∀ (data : List Country) (m : List (String × String)),
    (∀ c ∈ data, c.iso_3166_1_alpha2.length = 2) →
    ∃ m2, fillMap2 m data = Except.ok m2 := by
  intro data
  induction data with
  | nil => intro m _; exact ⟨m, rfl⟩
  | cons c rest ih =>
    intro m hv
    have h2 := hv c (List.mem_cons_self c rest)
    have hstep : fillMap2 m (c :: rest) =
        fillMap2 (dictInsert m c.iso_3166_1_alpha2 c.name) rest := by
      simp [fillMap2, h2]
    rw [hstep]
    exact ih _ (fun r hr => hv r (List.mem_cons_of_mem _ hr))

/-- C4: when two or more valid records share an alpha-2 code, both the map
builder and the grid builder end up holding the name of the last such record
in input order at that code's key and cell. -/
theorem c4_last_write_wins (data : List Country) (k : String) (c : Country)
    (hvalid : ∀ r ∈ data, validAlpha2 r)
    (hdup : 2 ≤ (data.filter (fun r => r.iso_3166_1_alpha2 == k)).length)
    (hlast : (data.filter (fun r => r.iso_3166_1_alpha2 == k)).getLast? = some c) :
    (∃ t, fillTable2 emptyTable2 data = Except.ok t ∧
      cell t (modIdx k 0) (modIdx k 1) = c.name) ∧
    (∃ m, fillMap2 [] data = Except.ok m ∧ dictLookup m k = some c.name) := by
  have hcf : c ∈ data.filter (fun r => r.iso_3166_1_alpha2 == k) := by
    obtain ⟨ys, hys⟩ := List.getLast?_eq_some_iff.1 hlast
    rw [hys]
    exact List.mem_append_right _ (List.mem_cons_self _ _)
  have hcd : c ∈ data := (List.mem_filter.1 hcf).1
  have hck : c.iso_3166_1_alpha2 = k := beq_iff_eq.1 (List.mem_filter.1 hcf).2
  constructor
  · obtain ⟨t, ht⟩ := fillTable2_ok_of data emptyTable2 (by simp [emptyTable2])
      (by
        intro row hr
        rw [emptyTable2] at hr
        rw [List.eq_of_mem_replicate hr]
        simp)
      (fun r hr => ⟨(hvalid r hr).1, (validAlpha2_bounds (hvalid r hr)).1,
        (validAlpha2_bounds (hvalid r hr)).2.1⟩)
    refine ⟨t, ht, ?_⟩
    rw [fillTable2_cell ht]
    have hcong : data.reverse.find? (fun r => hits2 r (modIdx k 0) (modIdx k 1)) =
        data.reverse.find? (fun r => r.iso_3166_1_alpha2 == k) := by
      apply find?_congr
      intro x hx
      have hxd : x ∈ data := List.mem_reverse.1 hx
      by_cases hxk : x.iso_3166_1_alpha2 = k
      · have hb : (x.iso_3166_1_alpha2 == k) = true := beq_iff_eq.2 hxk
        rw [hb]
        simp only [hits2]
        rw [← hxk]
        simp
      · have hb : (x.iso_3166_1_alpha2 == k) = false := by simp [hxk]
        rw [hb]
        simp only [hits2]
        cases hand : (modIdx x.iso_3166_1_alpha2 0 == modIdx k 0 &&
            modIdx x.iso_3166_1_alpha2 1 == modIdx k 1) with
        | false => rfl
        | true =>
          exfalso
          rw [Bool.and_eq_true, beq_iff_eq, beq_iff_eq] at hand
          have hkc0 : modIdx k 0 = modIdx c.iso_3166_1_alpha2 0 := by rw [hck]
          have hkc1 : modIdx k 1 = modIdx c.iso_3166_1_alpha2 1 := by rw [hck]
          have hxc := code_eq_of_idx_eq (hvalid x hxd) (hvalid c hcd)
            (hand.1.trans hkc0) (hand.2.trans hkc1)
          exact hxk (hxc.trans hck)
    rw [hcong, find?_reverse_eq_getLast?_filter, hlast]
    rfl
  · obtain ⟨m, hm⟩ := fillMap2_ok data [] (fun r hr => (hvalid r hr).1)
    refine ⟨m, hm, ?_⟩
    rw [fillMap2_lookup hm, find?_reverse_eq_getLast?_filter, hlast]
    rfl

/-- C4 witness: two records both coded AA, the later one wins. -/
theorem c4_last_write_wins_witness :
    ((∀ r ∈ ([⟨"First", "AA", "AAA"⟩, ⟨"Second", "AA", "AAB"⟩] : List Country),
        validAlpha2 r) ∧
      2 ≤ (([⟨"First", "AA", "AAA"⟩, ⟨"Second", "AA", "AAB"⟩] : List Country).filter
        (fun r => r.iso_3166_1_alpha2 == "AA")).length ∧
      (([⟨"First", "AA", "AAA"⟩, ⟨"Second", "AA", "AAB"⟩] : List Country).filter
        (fun r => r.iso_3166_1_alpha2 == "AA")).getLast? =
        some ⟨"Second", "AA", "AAB"⟩) ∧
    ((∃ t, fillTable2 emptyTable2
        [⟨"First", "AA", "AAA"⟩, ⟨"Second", "AA", "AAB"⟩] = Except.ok t ∧
      cell t (modIdx "AA" 0) (modIdx "AA" 1) = (⟨"Second", "AA", "AAB"⟩ : Country).name) ∧
    (∃ m, fillMap2 [] [⟨"First", "AA", "AAA"⟩, ⟨"Second", "AA", "AAB"⟩] = Except.ok m ∧
      dictLookup m "AA" = some (⟨"Second", "AA", "AAB"⟩ : Country).name)) :=
  ⟨⟨by decide, by decide, by decide⟩,
    c4_last_write_wins [⟨"First", "AA", "AAA"⟩, ⟨"Second", "AA", "AAB"⟩] "AA"
      ⟨"Second", "AA", "AAB"⟩ (by decide) (by decide) (by decide)⟩

/-- firstOccurrences preserves membership. -/
theorem mem_firstOccurrences {x : String} :
    ∀ {l : List String}, x ∈ firstOccurrences l ↔ x ∈ l := by
  intro l
  induction l with
  | nil => simp [firstOccurrences]
  | cons a l ih =>
    simp only [firstOccurrences, List.mem_cons, List.mem_filter, ih, bne_iff_ne]
    by_cases hx : x = a
    · simp [hx]
    · simp [hx]

/-- Appending one key to the input of firstOccurrences. -/
theorem firstOccurrences_append (l : List String) (k : String) :
    firstOccurrences (l ++ [k]) =
      if k ∈ l then firstOccurrences l else firstOccurrences l ++ [k] := by
  induction l with
  | nil => simp [firstOccurrences]
  | cons a l ih =>
    simp only [List.cons_append, firstOccurrences, List.append_eq]
    rw [ih]
    by_cases hk : k ∈ l
    · rw [if_pos hk, if_pos (List.mem_cons_of_mem _ hk)]
    · rw [if_neg hk]
      by_cases hka : k = a
      · rw [if_pos (by rw [hka]; exact List.mem_cons_self _ _), List.filter_append]
        simp [hka]
      · rw [if_neg (by
          intro hmem
          rcases List.mem_cons.1 hmem with h | h
          · exact hka h
          · exact hk h), List.filter_append]
        simp [hka]

/-- The key order after a Python dict assignment: an existing key keeps the
key list unchanged, a new key is appended. -/
theorem keys_dictInsert (m : List (String × String)) (k v : String) :
    (dictInsert m k v).map Prod.fst =
      if k ∈ m.map Prod.fst then m.map Prod.fst else m.map Prod.fst ++ [k] := by
  induction m with
  | nil => simp [dictInsert]
  | cons p rest ih =>
    simp only [dictInsert]
    by_cases hp : p.1 = k
    · rw [if_pos hp]
      simp [hp]
    · rw [if_neg hp]
      simp only [List.map_cons]
      rw [ih]
      by_cases hk : k ∈ rest.map Prod.fst
      · rw [if_pos hk, if_pos (List.mem_cons_of_mem _ hk)]
      · rw [if_neg hk, if_neg (by
          intro hmem
          rcases List.mem_cons.1 hmem with h | h
          · exact hp h.symm
          · exact hk h)]
        simp

/-- Master key-order law of the map fill loop: a successful run enumerates
its keys in first-occurrence input order. -/
theorem fillMap2_keys : ∀ {data : List Country} {m : List (String × String)},
    fillMap2 [] data = Except.ok m →
    m.map Prod.fst = firstOccurrences (data.map (fun c => c.iso_3166_1_alpha2)) := by
  intro data
  induction data using List.reverseRecOn with
  | nil =>
    intro m h
    have hm : m = [] := (Except.ok.inj h).symm
    subst hm
    rfl
  | append_singleton l c ih =>
    intro m h
    cases hl : fillMap2 [] l with
    | error e => rw [fillMap2_append_err hl] at h; exact absurd h (by simp)
    | ok m1 =>
      rw [fillMap2_append_ok hl, fillMap2_singleton] at h
      by_cases hlen : c.iso_3166_1_alpha2.length = 2
      · rw [if_pos hlen] at h
        have hm : m = dictInsert m1 c.iso_3166_1_alpha2 c.name := (Except.ok.inj h).symm
        subst hm
        rw [keys_dictInsert, ih hl]
        simp only [List.map_append, List.map_cons, List.map_nil]
        rw [firstOccurrences_append]
        by_cases hk : c.iso_3166_1_alpha2 ∈ l.map (fun c => c.iso_3166_1_alpha2)
        · rw [if_pos (mem_firstOccurrences.2 hk), if_pos hk]
        · rw [if_neg (fun hh => hk (mem_firstOccurrences.1 hh)), if_neg hk]
      · rw [if_neg hlen] at h; exact absurd h (by simp)

/-- C8: on valid input the map iso2map builds and prints enumerates its
code-name pairs in insertion order, which is first-occurrence input order;
a duplicate key silently overwrites the earlier value (each key maps to the
name of the last record carrying it) without changing the key position. -/
theorem c8_iso2map_insertion_order (data : List Country)
    (hvalid : ∀ c ∈ data, c.iso_3166_1_alpha2.length = 2) :
    ∃ m, fillMap2 [] data = Except.ok m ∧
      iso2map data = Except.ok (iso2mapLines m, m) ∧
      m.map Prod.fst = firstOccurrences (data.map (fun c => c.iso_3166_1_alpha2)) ∧
      ∀ k, dictLookup m k =
        (data.reverse.find? (fun r => r.iso_3166_1_alpha2 == k)).map Country.name := by
  obtain ⟨m, hm⟩ := fillMap2_ok data [] hvalid
  refine ⟨m, hm, ?_, fillMap2_keys hm, fillMap2_lookup hm⟩
  rw [iso2map, hm]

/-- C8 witness: three records with a duplicated first code. -/
theorem c8_iso2map_insertion_order_witness :
    (∀ c ∈ ([⟨"First", "AA", "AAA"⟩, ⟨"Other", "AB", "AAB"⟩,
        ⟨"Second", "AA", "AAC"⟩] : List Country), c.iso_3166_1_alpha2.length = 2) ∧
    (∃ m, fillMap2 [] [⟨"First", "AA", "AAA"⟩, ⟨"Other", "AB", "AAB"⟩,
        ⟨"Second", "AA", "AAC"⟩] = Except.ok m ∧
      iso2map [⟨"First", "AA", "AAA"⟩, ⟨"Other", "AB", "AAB"⟩,
        ⟨"Second", "AA", "AAC"⟩] = Except.ok (iso2mapLines m, m) ∧
      m.map Prod.fst = firstOccurrences
        (([⟨"First", "AA", "AAA"⟩, ⟨"Other", "AB", "AAB"⟩,
          ⟨"Second", "AA", "AAC"⟩] : List Country).map
            (fun c => c.iso_3166_1_alpha2)) ∧
      ∀ k, dictLookup m k =
        (([⟨"First", "AA", "AAA"⟩, ⟨"Other", "AB", "AAB"⟩,
          ⟨"Second", "AA", "AAC"⟩] : List Country).reverse.find?
            (fun r => r.iso_3166_1_alpha2 == k)).map Country.name) :=
  ⟨by decide,
    c8_iso2map_insertion_order [⟨"First", "AA", "AAA"⟩, ⟨"Other", "AB", "AAB"⟩,
      ⟨"Second", "AA", "AAC"⟩] (by decide)⟩

/-- The alpha-3 fill loop on one record is one fill step. -/
theorem fillTable3_singleton (t : List (List (List String))) (c : Country) :
    fillTable3 t [c] = fillStep3 t c := by
  cases h : fillStep3 t c with
  | ok t2 => simp [fillTable3, h]
  | error e => simp [fillTable3, h]

/-- C5 fails on the code as universally stated: a record whose length-2 code
contains a lowercase letter makes iso2table raise IndexError before it ever
reaches the wrong-length record, so the run does not raise InvalidCodeError. -/
theorem c5_counterexample :
    iso2table [⟨"Weird", "aA", "AAA"⟩, ⟨"Bad", "TOOLONG", "TST"⟩] =
      Except.error PyErr.indexError ∧
    (Except.error PyErr.indexError : Except PyErr (List String × List (List String))) ≠
      Except.error (PyErr.invalidCode "TOOLONG") := by
  constructor
  · decide
  · decide

/-- C5 amended: when every record before the first wrong-length record has a
length-2 code whose computed letter indices are in range (as all A..Z codes
are), iso2table and iso2map raise InvalidCodeError naming that record's code,
the run terminates, and nothing is printed to standard output. -/
theorem c5_invalid_code_aborts (pre post : List Country) (bad : Country)
    (hpre : ∀ c ∈ pre, c.iso_3166_1_alpha2.length = 2 ∧
      modIdx c.iso_3166_1_alpha2 0 < 26 ∧ modIdx c.iso_3166_1_alpha2 1 < 26)
    (hbad : ¬ bad.iso_3166_1_alpha2.length = 2) :
    iso2table (pre ++ bad :: post) =
      Except.error (PyErr.invalidCode bad.iso_3166_1_alpha2) ∧
    outputLines (iso2table (pre ++ bad :: post)) = [] ∧
    iso2map (pre ++ bad :: post) =
      Except.error (PyErr.invalidCode bad.iso_3166_1_alpha2) ∧
    outputLines (iso2map (pre ++ bad :: post)) = [] := by
  obtain ⟨t1, ht1⟩ := fillTable2_ok_of pre emptyTable2 (by simp [emptyTable2])
    (by
      intro row hr
      rw [emptyTable2] at hr
      rw [List.eq_of_mem_replicate hr]
      simp)
    hpre
  have htable : fillTable2 emptyTable2 (pre ++ bad :: post) =
      Except.error (PyErr.invalidCode bad.iso_3166_1_alpha2) := by
    rw [fillTable2_append_ok ht1]
    have hstep : fillStep2 t1 bad =
        Except.error (PyErr.invalidCode bad.iso_3166_1_alpha2) := by
      rw [fillStep2, if_neg hbad]
    simp [fillTable2, hstep]
  obtain ⟨m1, hm1⟩ := fillMap2_ok pre [] (fun c hc => (hpre c hc).1)
  have hmap : fillMap2 [] (pre ++ bad :: post) =
      Except.error (PyErr.invalidCode bad.iso_3166_1_alpha2) := by
    rw [fillMap2_append_ok hm1]
    simp [fillMap2, hbad]
  have h2t : iso2table (pre ++ bad :: post) =
      Except.error (PyErr.invalidCode bad.iso_3166_1_alpha2) := by
    rw [iso2table, htable]
  have h2m : iso2map (pre ++ bad :: post) =
      Except.error (PyErr.invalidCode bad.iso_3166_1_alpha2) := by
    rw [iso2map, hmap]
  exact ⟨h2t, by rw [h2t]; rfl, h2m, by rw [h2m]; rfl⟩

/-- C5 amended witness: one valid record, then the wrong-length fixture. -/
theorem c5_invalid_code_aborts_witness :
    ((∀ c ∈ ([⟨"Okay", "OK", "OKA"⟩] : List Country),
        c.iso_3166_1_alpha2.length = 2 ∧
        modIdx c.iso_3166_1_alpha2 0 < 26 ∧ modIdx c.iso_3166_1_alpha2 1 < 26) ∧
      ¬ (⟨"Bad", "TOOLONG", "TST"⟩ : Country).iso_3166_1_alpha2.length = 2) ∧
    (iso2table ([⟨"Okay", "OK", "OKA"⟩] ++ ⟨"Bad", "TOOLONG", "TST"⟩ :: []) =
      Except.error (PyErr.invalidCode
        (⟨"Bad", "TOOLONG", "TST"⟩ : Country).iso_3166_1_alpha2) ∧
    outputLines (iso2table ([⟨"Okay", "OK", "OKA"⟩] ++
      ⟨"Bad", "TOOLONG", "TST"⟩ :: [])) = [] ∧
    iso2map ([⟨"Okay", "OK", "OKA"⟩] ++ ⟨"Bad", "TOOLONG", "TST"⟩ :: []) =
      Except.error (PyErr.invalidCode
        (⟨"Bad", "TOOLONG", "TST"⟩ : Country).iso_3166_1_alpha2) ∧
    outputLines (iso2map ([⟨"Okay", "OK", "OKA"⟩] ++
      ⟨"Bad", "TOOLONG", "TST"⟩ :: [])) = []) :=
  ⟨⟨by decide, by decide⟩,
    c5_invalid_code_aborts [⟨"Okay", "OK", "OKA"⟩] [] ⟨"Bad", "TOOLONG", "TST"⟩
      (by decide) (by decide)⟩

/-- C6 fails on the code as stated: the record Weird has the length-2 code aA
with the lowercase letter a outside A..Z, yet the grid assignment is not
silent: it raises IndexError because ord a mod 65 = 32 is out of range. -/
theorem c6_counterexample :
    ((⟨"Weird", "aA", "AAA"⟩ : Country).iso_3166_1_alpha2.length = 2 ∧
      ¬('A' ≤ 'a' ∧ 'a' ≤ 'Z')) ∧
    fillTable2 emptyTable2 [⟨"Weird", "aA", "AAA"⟩] = Except.error PyErr.indexError := by
  constructor
  · constructor
    · decide
    · decide
  · decide

/-- C6 amended: for a record passing the length checks, the mod-65 indexing
in the table builders proceeds silently (assigning the name at the computed,
possibly mis-indexed cell) precisely when every computed index is below 26;
when some index reaches 26 or more, which happens for many characters
outside A..Z such as lowercase letters, the assignment raises IndexError. -/
theorem c6_mod65_silent_iff_in_range (c : Country)
    (h2 : c.iso_3166_1_alpha2.length = 2) (h3 : c.iso_3166_1_alpha3.length = 3) :
    (modIdx c.iso_3166_1_alpha2 0 < 26 ∧ modIdx c.iso_3166_1_alpha2 1 < 26 →
      fillTable2 emptyTable2 [c] = Except.ok
        (emptyTable2.set (modIdx c.iso_3166_1_alpha2 0)
          ((List.replicate 26 "").set (modIdx c.iso_3166_1_alpha2 1) c.name)) ∧
      cell (emptyTable2.set (modIdx c.iso_3166_1_alpha2 0)
          ((List.replicate 26 "").set (modIdx c.iso_3166_1_alpha2 1) c.name))
        (modIdx c.iso_3166_1_alpha2 0) (modIdx c.iso_3166_1_alpha2 1) = c.name) ∧
    (¬(modIdx c.iso_3166_1_alpha2 0 < 26 ∧ modIdx c.iso_3166_1_alpha2 1 < 26) →
      fillTable2 emptyTable2 [c] = Except.error PyErr.indexError) ∧
    (modIdx c.iso_3166_1_alpha3 0 < 26 ∧ modIdx c.iso_3166_1_alpha3 1 < 26 ∧
        modIdx c.iso_3166_1_alpha3 2 < 26 →
      fillTable3 emptyTable3 [c] = Except.ok
        (emptyTable3.set (modIdx c.iso_3166_1_alpha3 0)
          ((List.replicate 26 (List.replicate 26 "")).set (modIdx c.iso_3166_1_alpha3 1)
            ((List.replicate 26 "").set (modIdx c.iso_3166_1_alpha3 2) c.name))) ∧
      cell3 (emptyTable3.set (modIdx c.iso_3166_1_alpha3 0)
          ((List.replicate 26 (List.replicate 26 "")).set (modIdx c.iso_3166_1_alpha3 1)
            ((List.replicate 26 "").set (modIdx c.iso_3166_1_alpha3 2) c.name)))
        (modIdx c.iso_3166_1_alpha3 0) (modIdx c.iso_3166_1_alpha3 1)
        (modIdx c.iso_3166_1_alpha3 2) = c.name) ∧
    (¬(modIdx c.iso_3166_1_alpha3 0 < 26 ∧ modIdx c.iso_3166_1_alpha3 1 < 26 ∧
        modIdx c.iso_3166_1_alpha3 2 < 26) →
      fillTable3 emptyTable3 [c] = Except.error PyErr.indexError) := by
  refine ⟨?_, ?_, ?_, ?_⟩
  · rintro ⟨h0, h1⟩
    have hrow : emptyTable2[modIdx c.iso_3166_1_alpha2 0]? =
        some (List.replicate 26 "") := by
      rw [emptyTable2, List.getElem?_replicate, if_pos h0]
    have hstep : fillStep2 emptyTable2 c = Except.ok
        (emptyTable2.set (modIdx c.iso_3166_1_alpha2 0)
          ((List.replicate 26 "").set (modIdx c.iso_3166_1_alpha2 1) c.name)) := by
      rw [fillStep2, if_pos h2, setCell2, pyGet, hrow]
      simp only [if_pos (show modIdx c.iso_3166_1_alpha2 1 <
        (List.replicate 26 "").length by simp [h1])]
    refine ⟨by rw [fillTable2_singleton, hstep], ?_⟩
    rw [cell_set hrow (by simp [h1])]
    simp
  · intro hout
    by_cases h0 : modIdx c.iso_3166_1_alpha2 0 < 26
    · have h1 : ¬ modIdx c.iso_3166_1_alpha2 1 < 26 := fun hh => hout ⟨h0, hh⟩
      have hrow : emptyTable2[modIdx c.iso_3166_1_alpha2 0]? =
          some (List.replicate 26 "") := by
        rw [emptyTable2, List.getElem?_replicate, if_pos h0]
      have hstep : fillStep2 emptyTable2 c = Except.error PyErr.indexError := by
        rw [fillStep2, if_pos h2, setCell2, pyGet, hrow]
        simp only [if_neg (show ¬ modIdx c.iso_3166_1_alpha2 1 <
          (List.replicate 26 "").length by simp [h1])]
      rw [fillTable2_singleton, hstep]
    · have hrow : emptyTable2[modIdx c.iso_3166_1_alpha2 0]? = none := by
        rw [emptyTable2, List.getElem?_replicate, if_neg h0]
      have hstep : fillStep2 emptyTable2 c = Except.error PyErr.indexError := by
        rw [fillStep2, if_pos h2, setCell2, pyGet, hrow]
      rw [fillTable2_singleton, hstep]
  · rintro ⟨h0, h1, hk⟩
    have hmat : emptyTable3[modIdx c.iso_3166_1_alpha3 0]? =
        some (List.replicate 26 (List.replicate 26 "")) := by
      rw [emptyTable3, List.getElem?_replicate, if_pos h0]
    have hrow : (List.replicate 26 (List.replicate 26 ""))[modIdx
        c.iso_3166_1_alpha3 1]? = some (List.replicate 26 "") := by
      rw [List.getElem?_replicate, if_pos h1]
    have hstep : fillStep3 emptyTable3 c = Except.ok
        (emptyTable3.set (modIdx c.iso_3166_1_alpha3 0)
          ((List.replicate 26 (List.replicate 26 "")).set (modIdx c.iso_3166_1_alpha3 1)
            ((List.replicate 26 "").set (modIdx c.iso_3166_1_alpha3 2) c.name))) := by
      rw [fillStep3, if_pos h3, setCell3, pyGet, hmat]
      simp only []
      rw [pyGet, hrow]
      simp only [if_pos (show modIdx c.iso_3166_1_alpha3 2 <
        (List.replicate 26 "").length by simp [hk])]
    refine ⟨by rw [fillTable3_singleton, hstep], ?_⟩
    simp only [cell3, List.getD_eq_getElem?_getD]
    rw [List.getElem?_set_self (show modIdx c.iso_3166_1_alpha3 0 < emptyTable3.length by
        rw [emptyTable3, List.length_replicate]; exact h0), Option.getD_some,
      List.getElem?_set_self (show modIdx c.iso_3166_1_alpha3 1 <
        (List.replicate 26 (List.replicate 26 "")).length by
        rw [List.length_replicate]; exact h1), Option.getD_some,
      List.getElem?_set_self (show modIdx c.iso_3166_1_alpha3 2 <
        (List.replicate 26 "").length by rw [List.length_replicate]; exact hk),
      Option.getD_some]
  · intro hout
    by_cases h0 : modIdx c.iso_3166_1_alpha3 0 < 26
    · have hmat : emptyTable3[modIdx c.iso_3166_1_alpha3 0]? =
          some (List.replicate 26 (List.replicate 26 "")) := by
        rw [emptyTable3, List.getElem?_replicate, if_pos h0]
      by_cases h1 : modIdx c.iso_3166_1_alpha3 1 < 26
      · have h2k : ¬ modIdx c.iso_3166_1_alpha3 2 < 26 := fun hh => hout ⟨h0, h1, hh⟩
        have hrow : (List.replicate 26 (List.replicate 26 ""))[modIdx
            c.iso_3166_1_alpha3 1]? = some (List.replicate 26 "") := by
          rw [List.getElem?_replicate, if_pos h1]
        have hstep : fillStep3 emptyTable3 c = Except.error PyErr.indexError := by
          rw [fillStep3, if_pos h3, setCell3, pyGet, hmat]
          simp only []
          rw [pyGet, hrow]
          simp only [if_neg (show ¬ modIdx c.iso_3166_1_alpha3 2 <
            (List.replicate 26 "").length by simp [h2k])]
        rw [fillTable3_singleton, hstep]
      · have hrow : (List.replicate 26 (List.replicate 26 ""))[modIdx
            c.iso_3166_1_alpha3 1]? = none := by
          rw [List.getElem?_replicate, if_neg h1]
        have hstep : fillStep3 emptyTable3 c = Except.error PyErr.indexError := by
          rw [fillStep3, if_pos h3, setCell3, pyGet, hmat]
          simp only []
          rw [pyGet, hrow]
        rw [fillTable3_singleton, hstep]
    · have hmat : emptyTable3[modIdx c.iso_3166_1_alpha3 0]? = none := by
        rw [emptyTable3, List.getElem?_replicate, if_neg h0]
      have hstep : fillStep3 emptyTable3 c = Except.error PyErr.indexError := by
        rw [fillStep3, if_pos h3, setCell3, pyGet, hmat]
      rw [fillTable3_singleton, hstep]

/-- C6 amended witness: the record Weird with codes aA and aAA passes the
length checks, has out-of-range indices, and raises IndexError in both
builders; a control character shows the silent in-range case. -/
theorem c6_mod65_silent_iff_in_range_witness :
    (((⟨"Weird", "aA", "aAA"⟩ : Country).iso_3166_1_alpha2.length = 2 ∧
      (⟨"Weird", "aA", "aAA"⟩ : Country).iso_3166_1_alpha3.length = 3) ∧
    ((modIdx (⟨"Weird", "aA", "aAA"⟩ : Country).iso_3166_1_alpha2 0 < 26 ∧
        modIdx (⟨"Weird", "aA", "aAA"⟩ : Country).iso_3166_1_alpha2 1 < 26 →
      fillTable2 emptyTable2 [⟨"Weird", "aA", "aAA"⟩] = Except.ok
        (emptyTable2.set (modIdx (⟨"Weird", "aA", "aAA"⟩ : Country).iso_3166_1_alpha2 0)
          ((List.replicate 26 "").set
            (modIdx (⟨"Weird", "aA", "aAA"⟩ : Country).iso_3166_1_alpha2 1) "Weird")) ∧
      cell (emptyTable2.set (modIdx (⟨"Weird", "aA", "aAA"⟩ : Country).iso_3166_1_alpha2 0)
          ((List.replicate 26 "").set
            (modIdx (⟨"Weird", "aA", "aAA"⟩ : Country).iso_3166_1_alpha2 1) "Weird"))
        (modIdx (⟨"Weird", "aA", "aAA"⟩ : Country).iso_3166_1_alpha2 0)
        (modIdx (⟨"Weird", "aA", "aAA"⟩ : Country).iso_3166_1_alpha2 1) = "Weird") ∧
    (¬(modIdx (⟨"Weird", "aA", "aAA"⟩ : Country).iso_3166_1_alpha2 0 < 26 ∧
        modIdx (⟨"Weird", "aA", "aAA"⟩ : Country).iso_3166_1_alpha2 1 < 26) →
      fillTable2 emptyTable2 [⟨"Weird", "aA", "aAA"⟩] =
        Except.error PyErr.indexError) ∧
    (modIdx (⟨"Weird", "aA", "aAA"⟩ : Country).iso_3166_1_alpha3 0 < 26 ∧
        modIdx (⟨"Weird", "aA", "aAA"⟩ : Country).iso_3166_1_alpha3 1 < 26 ∧
        modIdx (⟨"Weird", "aA", "aAA"⟩ : Country).iso_3166_1_alpha3 2 < 26 →
      fillTable3 emptyTable3 [⟨"Weird", "aA", "aAA"⟩] = Except.ok
        (emptyTable3.set (modIdx (⟨"Weird", "aA", "aAA"⟩ : Country).iso_3166_1_alpha3 0)
          ((List.replicate 26 (List.replicate 26 "")).set
            (modIdx (⟨"Weird", "aA", "aAA"⟩ : Country).iso_3166_1_alpha3 1)
            ((List.replicate 26 "").set
              (modIdx (⟨"Weird", "aA", "aAA"⟩ : Country).iso_3166_1_alpha3 2) "Weird"))) ∧
      cell3 (emptyTable3.set (modIdx (⟨"Weird", "aA", "aAA"⟩ : Country).iso_3166_1_alpha3 0)
          ((List.replicate 26 (List.replicate 26 "")).set
            (modIdx (⟨"Weird", "aA", "aAA"⟩ : Country).iso_3166_1_alpha3 1)
            ((List.replicate 26 "").set
              (modIdx (⟨"Weird", "aA", "aAA"⟩ : Country).iso_3166_1_alpha3 2) "Weird")))
        (modIdx (⟨"Weird", "aA", "aAA"⟩ : Country).iso_3166_1_alpha3 0)
        (modIdx (⟨"Weird", "aA", "aAA"⟩ : Country).iso_3166_1_alpha3 1)
        (modIdx (⟨"Weird", "aA", "aAA"⟩ : Country).iso_3166_1_alpha3 2) = "Weird") ∧
    (¬(modIdx (⟨"Weird", "aA", "aAA"⟩ : Country).iso_3166_1_alpha3 0 < 26 ∧
        modIdx (⟨"Weird", "aA", "aAA"⟩ : Country).iso_3166_1_alpha3 1 < 26 ∧
        modIdx (⟨"Weird", "aA", "aAA"⟩ : Country).iso_3166_1_alpha3 2 < 26) →
      fillTable3 emptyTable3 [⟨"Weird", "aA", "aAA"⟩] =
        Except.error PyErr.indexError))) ∧
    fillTable2 emptyTable2 [⟨"Weird", "aA", "aAA"⟩] = Except.error PyErr.indexError :=
  ⟨⟨⟨by decide, by decide⟩,
    c6_mod65_silent_iff_in_range ⟨"Weird", "aA", "aAA"⟩ (by decide) (by decide)⟩,
    by decide⟩
